import Mathlib

/-!
Verification of the review scoring, classification and dominance-deduplication
pipeline of `crevette` (`src/crevette/src/lib.rs`), a converter from cargo-crev
reviews to a cargo-vet `audits.toml` document.

The development shallowly embeds `Crevette::convert_to_document` and its helper
functions.  External capabilities (the trust oracle, the proof-digest store and
the verified-URL lookup) are modelled as function-valued fields of a context
record, mirroring the narrow read-only interfaces the code consumes.  Rust
enums with `derive(Ord)` are modelled by explicit rank functions following the
declaration order of the source enums.  `semver::Version` is modelled with
numeric pre-release identifiers, keeping the semver precedence rules (a
pre-release sorts below the same version without one).
-/

/-- `crev_data::Level`: declaration order `None, Low, Medium, High`. -/
inductive Level where
  | wnone
  | low
  | medium
  | high
deriving DecidableEq, Repr

/-- `crev_data::Rating`: declaration order `Negative, Neutral, Positive, Strong`. -/
inductive Rating where
  | negative
  | neutral
  | positive
  | strong
deriving DecidableEq, Repr

/-- `crev_data::TrustLevel`: declaration order `Distrust, None, Low, Medium, High`. -/
inductive TrustLevel where
  | distrust
  | tnone
  | low
  | medium
  | high
deriving DecidableEq, Repr

/-- Numeric rank realising the derived `Ord` of `Level`. -/
def Level.rank : Level → Nat
  | .wnone => 0
  | .low => 1
  | .medium => 2
  | .high => 3

instance : LT Level := ⟨fun a b => a.rank < b.rank⟩
instance : LE Level := ⟨fun a b => a.rank ≤ b.rank⟩

instance (a b : Level) : Decidable (a < b) :=
  inferInstanceAs (Decidable (a.rank < b.rank))

instance (a b : Level) : Decidable (a ≤ b) :=
  inferInstanceAs (Decidable (a.rank ≤ b.rank))

/-- `Ord::max` as used by `Iterator::max`: `if self <= other { other } else { self }`. -/
def Level.maxL (a b : Level) : Level :=
  if a ≤ b then b else a

/-- Numeric rank realising the derived `Ord` of `Rating`. -/
def Rating.rank : Rating → Nat
  | .negative => 0
  | .neutral => 1
  | .positive => 2
  | .strong => 3

instance : LT Rating := ⟨fun a b => a.rank < b.rank⟩
instance : LE Rating := ⟨fun a b => a.rank ≤ b.rank⟩

instance (a b : Rating) : Decidable (a < b) :=
  inferInstanceAs (Decidable (a.rank < b.rank))

instance (a b : Rating) : Decidable (a ≤ b) :=
  inferInstanceAs (Decidable (a.rank ≤ b.rank))

/-- Numeric rank realising the derived `Ord` of `TrustLevel`. -/
def TrustLevel.rank : TrustLevel → Nat
  | .distrust => 0
  | .tnone => 1
  | .low => 2
  | .medium => 3
  | .high => 4

instance : LT TrustLevel := ⟨fun a b => a.rank < b.rank⟩
instance : LE TrustLevel := ⟨fun a b => a.rank ≤ b.rank⟩

instance (a b : TrustLevel) : Decidable (a < b) :=
  inferInstanceAs (Decidable (a.rank < b.rank))

instance (a b : TrustLevel) : Decidable (a ≤ b) :=
  inferInstanceAs (Decidable (a.rank ≤ b.rank))

/-- `Ord::cmp` on `Nat`, as Rust derives it for `u32` fields and dates. -/
def cmpN (a b : Nat) : Ordering :=
  if a < b then Ordering.lt else if a = b then Ordering.eq else Ordering.gt

/-- `semver::Version` with numeric pre-release identifiers.  Build metadata is
ignored by semver comparison and is not modelled. -/
structure Version where
  major : Nat
  minor : Nat
  patch : Nat
  pre : List Nat
deriving DecidableEq, Repr

/-- Comparison of pre-release identifier tails once both sides are known to be
pre-releases: identifier-wise numeric comparison, a shorter list of
identifiers sorting below a longer one with the same first identifiers. -/
def cmpPreRest : List Nat → List Nat → Ordering
  | [], [] => Ordering.eq
  | [], _ :: _ => Ordering.lt
  | _ :: _, [] => Ordering.gt
  | a :: as, b :: bs => (cmpN a b).then (cmpPreRest as bs)

/-- Semver pre-release comparison: a version without a pre-release has higher
precedence than the same version with one. -/
def cmpPre : List Nat → List Nat → Ordering
  | [], [] => Ordering.eq
  | [], _ :: _ => Ordering.gt
  | _ :: _, [] => Ordering.lt
  | a :: as, b :: bs => (cmpN a b).then (cmpPreRest as bs)

/-- `semver::Version::cmp`: major, minor, patch, then pre-release precedence. -/
def compareVersion (a b : Version) : Ordering :=
  ((cmpN a.major b.major).then
    ((cmpN a.minor b.minor).then
      ((cmpN a.patch b.patch).then (cmpPre a.pre b.pre))))

instance : LT Version := ⟨fun a b => compareVersion a b = Ordering.lt⟩
instance : LE Version := ⟨fun a b => compareVersion a b ≠ Ordering.gt⟩

instance (a b : Version) : Decidable (a < b) :=
  inferInstanceAs (Decidable (compareVersion a b = Ordering.lt))

instance (a b : Version) : Decidable (a ≤ b) :=
  inferInstanceAs (Decidable (compareVersion a b ≠ Ordering.gt))

/-- The first `/`-separated segment of a string: `str::split('/').next()`,
which always yields a (possibly empty) first segment. -/
def firstSegment (s : String) : String :=
  String.mk (s.data.takeWhile (fun ch => !(ch == '/')))

/-- `str::trim_start`: drop leading whitespace. -/
def trimStart (s : String) : String :=
  String.mk (s.data.dropWhile (fun ch => ch.isWhitespace))

/-- `[String]::join(sep)`. -/
def joinSep (sep : String) : List String → String
  | [] => ""
  | [x] => x
  | x :: xs => x ++ sep ++ joinSep sep xs

/-- `semver::Version` `Display`, restricted to numeric pre-release ids. -/
def versionToString (v : Version) : String :=
  let base := toString v.major ++ "." ++ toString v.minor ++ "." ++ toString v.patch
  match v.pre with
  | [] => base
  | ps => base ++ "-" ++ joinSep "." (ps.map toString)

/-- `fn level_as_score(level: Level) -> u32` (src/crevette/src/lib.rs:510). -/
def level_as_score : Level → Nat
  | Level.wnone => 0
  | Level.low => 1
  | Level.medium => 3
  | Level.high => 7

/-- `crev_data::proof::PackageId`: the `source`/`name` pair (`r.package.id.id`). -/
structure PackageId where
  source : String
  name : String
deriving DecidableEq, Repr

/-- `crev_data::proof::PackageVersionId` (`r.package.id`). -/
structure PackageVersionId where
  id : PackageId
  version : Version
deriving DecidableEq, Repr

/-- `crev_data::proof::PackageInfo` (`r.package`). -/
structure PackageInfo where
  id : PackageVersionId
  revision : String
  revision_type : String
deriving DecidableEq, Repr

/-- `crev_data::PublicId` (`r.common.from`): the reviewer identity. -/
structure PublicId where
  id : String
deriving DecidableEq, Repr

/-- The `from`/`date` part of the proof common header (`r.common`).  The
submission date is modelled as a natural number with the date order. -/
structure ProofCommon where
  fromId : PublicId
  date : Nat
deriving DecidableEq, Repr

/-- `crev_data::Review`: the rating/thoroughness/understanding triple. -/
structure Review where
  thoroughness : Level
  understanding : Level
  rating : Rating
deriving DecidableEq, Repr

/-- One entry of `r.issues`. -/
structure Issue where
  severity : Level
  id : String
  comment : String
deriving DecidableEq, Repr

/-- One entry of `r.advisories`. -/
structure Advisory where
  severity : Level
  ids : List String
  comment : String
deriving DecidableEq, Repr

/-- `r.flags`. -/
structure Flags where
  unmaintained : Bool
deriving DecidableEq, Repr

/-- `crev_data::review::Package`: a package review proof. -/
structure Package where
  common : ProofCommon
  package : PackageInfo
  diff_base : Option PackageInfo
  review : Option Review
  issues : List Issue
  advisories : List Advisory
  flags : Flags
  comment : String
deriving DecidableEq, Repr

/-- `review_quality_score` as computed at src/crevette/src/lib.rs:245. -/
def review_quality_score (review : Review) : Nat :=
  level_as_score review.thoroughness + level_as_score review.understanding

/-- `cargo-vet` audit entry (`vet::AuditEntry`), `who` always in its
single-string form as produced by `convert_to_document`. -/
structure AuditEntry where
  criteria : List String
  who : String
  notes : Option String
  violation : Option String
  version : Option String
  delta : Option String
  aggregated_from : List String
deriving DecidableEq, Repr

/-- The conversion context: the fields of `Crevette` together with the narrow
read-only capabilities it consumes from `ProofDB`/`TrustSet`:
`reviews` is the proof database's review list, `trustOf` is
`TrustSet::get_effective_trust_level`, `lookupUrl` is
`ProofDB::lookup_url(..).verified()` and `digestOf` is
`ProofDB::get_proof_digest_by_pkg_review_id` (already rendered to base64). -/
structure Ctx where
  reviews : List Package
  trustOf : String → TrustLevel
  min_trust_level : TrustLevel
  lookupUrl : String → Option String
  digestOf : Package → Option String
  include_git_revs : Bool

/-- `str::strip_prefix`-like helper on strings: remove `pat` from the start. -/
def dropStart? (s pat : String) : Option String :=
  if pat.data.isPrefixOf s.data then
    Option.some (String.mk (s.data.drop pat.data.length))
  else Option.none

/-- `str::strip_suffix`-like helper on strings: remove `pat` from the end. -/
def dropEnd? (s pat : String) : Option String :=
  if pat.data.reverse.isPrefixOf s.data.reverse then
    Option.some (String.mk (s.data.take (s.data.length - pat.data.length)))
  else Option.none

/-- Substring test on character lists, used to model `str::contains`. -/
def containsSub (needle : List Char) : List Char → Bool
  | [] => needle.isEmpty
  | c :: t => needle.isPrefixOf (c :: t) || containsSub needle t

/-- `str::contains(sub)` for a literal substring. -/
def strContains (s sub : String) : Bool :=
  containsSub sub.data s.data

/-- `Iterator::max` over levels (`Option` result, `Ord::max` pairwise). -/
def maxLevel? : List Level → Option Level
  | [] => Option.none
  | x :: xs => Option.some (xs.foldl Level.maxL x)

/-- `Display` for `Level` (the lowercase variant names). -/
def Level.toStr : Level → String
  | Level.wnone => "none"
  | Level.low => "low"
  | Level.medium => "medium"
  | Level.high => "high"

/-- The trust part of `min_score` (src/crevette/src/lib.rs:276-281);
`Distrust | None` is the `continue` arm, modelled as `Option.none`. -/
def trust_term? : TrustLevel → Option Nat
  | TrustLevel.distrust | TrustLevel.tnone => Option.none
  | TrustLevel.low => Option.some (level_as_score Level.high)
  | TrustLevel.medium => Option.some (level_as_score Level.medium)
  | TrustLevel.high => Option.some (level_as_score Level.low)

/-- The rating part of `min_score` (src/crevette/src/lib.rs:281-286). -/
def rating_term : Rating → Nat
  | Rating.negative => level_as_score Level.wnone
  | Rating.neutral => level_as_score Level.medium
  | Rating.positive => level_as_score Level.low
  | Rating.strong => level_as_score Level.wnone

/-- Maximum severity across issues and advisories, defaulting to `Medium`
(src/crevette/src/lib.rs:266-268). -/
def violation_severity (r : Package) : Level :=
  match maxLevel? (r.issues.map Issue.severity ++ r.advisories.map Advisory.severity) with
  | Option.some s => s
  | Option.none => Level.medium

/-- Criteria of a violation entry (src/crevette/src/lib.rs:269-274). -/
def violation_criteria (r : Package) : List String :=
  match violation_severity r with
  | Level.wnone => ["level-none"]
  | Level.low => ["level-low"]
  | Level.medium => ["safe-to-deploy"]
  | Level.high => ["safe-to-run", "safe-to-deploy"]

/-- The trust criterion tag (src/crevette/src/lib.rs:448-453); the
`Distrust | None` arm panics (`unreachable!()`) in the source and is never hit
by the call site, which has already skipped those trust levels. -/
def trust_criterion : TrustLevel → String
  | TrustLevel.distrust | TrustLevel.tnone => "unreachable"
  | TrustLevel.low => "trust-low"
  | TrustLevel.medium => "trust-medium"
  | TrustLevel.high => "trust-high"

/-- `fn criteria_for_non_negative_review` (src/crevette/src/lib.rs:419-474). -/
def criteria_for_non_negative_review (trust : TrustLevel) (r : Package) (review : Review)
    (review_quality_score : Nat) : List String :=
  let safe_to_run : Bool := decide (trust ≥ TrustLevel.medium) &&
    (match review.rating with
     | Rating.negative => false
     | Rating.neutral =>
       decide (review_quality_score ≥ level_as_score Level.medium + level_as_score Level.medium)
     | Rating.positive =>
       decide (review_quality_score ≥ level_as_score Level.medium + level_as_score Level.low)
     | Rating.strong =>
       decide (review_quality_score ≥ level_as_score Level.low + level_as_score Level.low))
  let safe_to_deploy : Bool := safe_to_run && decide (review.understanding ≥ Level.medium) &&
    (match review.rating with
     | Rating.negative => false
     | Rating.neutral => decide (review.thoroughness ≥ Level.high)
     | Rating.positive => decide (review.thoroughness ≥ Level.medium)
     | Rating.strong => decide (review.thoroughness ≥ Level.low))
  let criterion := match review.rating with
    | Rating.negative => "negative"
    | Rating.neutral => "neutral"
    | Rating.positive => "positive"
    | Rating.strong => "strong"
  let level := if review_quality_score ≥ level_as_score Level.high * 2 then "level-high"
    else if review_quality_score ≥ level_as_score Level.medium * 2 then "level-medium"
    else if review_quality_score ≥ level_as_score Level.low * 2 then "level-low"
    else "level-none"
  [criterion, level, trust_criterion trust]
    ++ (if safe_to_deploy then ["safe-to-deploy"] else [])
    ++ (if safe_to_run then ["safe-to-run"] else [])
    ++ (if r.flags.unmaintained then ["unmaintained"] else [])

/-- `Crevette::vet_version` (src/crevette/src/lib.rs:410-416). -/
def vet_version (c : Ctx) (pkg : PackageInfo) : String :=
  if c.include_git_revs && (pkg.revision_type == "git") && !(pkg.revision == "") then
    versionToString pkg.id.version ++ "@git:" ++ pkg.revision
  else
    versionToString pkg.id.version

/-- `fn author_from_id` (src/crevette/src/lib.rs:484-508). -/
def author_from_id (pub_id : PublicId) (verified_url : Option String) : String :=
  match verified_url with
  | Option.some url0 =>
    let url := (dropEnd? url0 "/crev-proofs").getD url0
    let username :=
      (["https://github.com/", "https://gitlab.com/", "https://git.sr.ht/~"].findSome?
        (fun p => dropStart? url p)).map firstSegment
    match username with
    | Option.some username => "\"" ++ username ++ "\" (" ++ url ++ ")"
    | Option.none =>
      match (dropStart? url "https://").map firstSegment with
      | Option.some host => "\"" ++ host ++ "\" (" ++ url ++ ")"
      | Option.none => url
  | Option.none => "https://web.crev.dev/rust-reviews/reviewer/" ++ pub_id.id

/-- One advisory block of the notes text (src/crevette/src/lib.rs:343-359). -/
def push_advisory (out : String) (adv : Advisory) : String :=
  let out := if !(out == "") then out ++ "\n" else out
  let out := out ++ "severity: " ++ adv.severity.toStr ++ "\n"
  let out := if !(adv.ids == []) then out ++ "id: " ++ joinSep ", " adv.ids ++ "\n"
    else out
  if !(adv.comment == "") then (if !(out == "") then out ++ "\n" else out) ++ adv.comment
  else out

/-- One issue block of the notes text (src/crevette/src/lib.rs:361-369). -/
def push_issue (out : String) (issue : Issue) : String :=
  let out := out ++ "severity: " ++ issue.severity.toStr ++ "\nid: " ++ issue.id ++ "\n"
  if !(issue.comment == "") then (if !(out == "") then out ++ "\n" else out) ++ issue.comment
  else out

/-- The notes text before the violation placeholder fallback
(src/crevette/src/lib.rs:338-379). -/
def build_notes (r : Package) : Option String :=
  let notes := if !(trimStart r.comment == "") then Option.some r.comment else Option.none
  let out := r.issues.foldl push_issue (r.advisories.foldl push_advisory "")
  if !(out == "") then
    match notes with
    | Option.none => Option.some out
    | Option.some n => Option.some (n ++ "\n" ++ out)
  else notes

/-- The `last_review` accumulator of the dominance-deduplication fold:
`(review_quality_score, trust, version)` (src/crevette/src/lib.rs:258,397-400). -/
structure Marker where
  quality : Nat
  trust : TrustLevel
  version : Version
deriving DecidableEq, Repr

/-- The pareto-dominance test (src/crevette/src/lib.rs:292-302): a candidate
is dropped when the marker has at least its quality and either a strictly
newer version with at least its trust, or at least its version with strictly
more trust. -/
def dominatedBy (last_review : Option Marker) (trust : TrustLevel)
    (review_quality_score : Nat) (version : Version) : Bool :=
  match last_review with
  | Option.none => false
  | Option.some m =>
    if m.quality ≥ review_quality_score then
      (decide (m.version > version) && decide (m.trust ≥ trust)) ||
        (decide (m.version ≥ version) && decide (m.trust > trust))
    else false

/-- The marker written after an emitted review (src/crevette/src/lib.rs:396-400):
a value exactly when the emitted review is rated above `Neutral`, is not an
incremental review, and targets a non-prerelease version. -/
def next_marker (trust : TrustLevel) (review_quality_score : Nat) (r : Package)
    (review : Review) : Option Marker :=
  if decide (review.rating > Rating.neutral) && decide (r.diff_base = Option.none)
      && decide (r.package.id.version.pre = []) then
    Option.some ⟨review_quality_score, trust, r.package.id.version⟩
  else Option.none

/-- The hardcoded violation blocklist test (src/crevette/src/lib.rs:312):
`public_url.map_or(false, |u| u.url.contains("MaulingM"))`. -/
def blocked_url (public_url : Option String) : Bool :=
  match public_url with
  | Option.some u => strContains u "MaulingM"
  | Option.none => false

/-- One iteration of the per-package loop of `convert_to_document`
(src/crevette/src/lib.rs:259-401).  Returns the emitted audit entry (tagged
with the review it came from; `Option.none` when the review is skipped by a
`continue`) together with the new `last_review` marker. -/
def step (c : Ctx) (last_review : Option Marker) (e : TrustLevel × Nat × Package) :
    Option (Package × AuditEntry) × Option Marker :=
  let trust := e.1
  let review_quality_score := e.2.1
  let r := e.2.2
  match r.review with
  | Option.none => (Option.none, last_review)
  | Option.some review =>
    let violation : Bool := decide (review.rating = Rating.negative)
    let criteria? : Option (List String) :=
      if violation then
        Option.some (violation_criteria r)
      else
        match trust_term? trust with
        | Option.none => Option.none
        | Option.some tt =>
          let min_score := tt + rating_term review.rating
          if review_quality_score < min_score then Option.none
          else if dominatedBy last_review trust review_quality_score r.package.id.version then
            Option.none
          else Option.some (criteria_for_non_negative_review trust r review review_quality_score)
    match criteria? with
    | Option.none => (Option.none, last_review)
    | Option.some criteria =>
      let pub_id := r.common.fromId
      let public_url := c.lookupUrl pub_id.id
      let base_url := match public_url with
        | Option.some u => u ++ "#" ++ pub_id.id
        | Option.none => "crev:user/" ++ pub_id.id
      if violation && blocked_url public_url then (Option.none, last_review)
      else
        let vd : Option String × Option String :=
          if violation then (Option.none, Option.none)
          else match r.diff_base with
            | Option.some base =>
              (Option.none,
                Option.some (vet_version c base ++ " -> " ++ vet_version c r.package))
            | Option.none => (Option.some (vet_version c r.package), Option.none)
        match c.digestOf r with
        | Option.none => (Option.none, last_review)
        | Option.some digest =>
          let entry : AuditEntry :=
            { criteria := criteria,
              who := author_from_id pub_id public_url,
              notes := match build_notes r with
                | Option.some n => Option.some n
                | Option.none =>
                  if violation then
                    Option.some ("<https://lib.rs/crates/" ++ r.package.id.id.name ++ "/audit>")
                  else Option.none,
              violation :=
                if violation then Option.some ("=" ++ versionToString r.package.id.version)
                else Option.none,
              version := vd.1,
              delta := vd.2,
              aggregated_from := [base_url, "crev:review/" ++ digest] }
          (Option.some (r, entry), next_marker trust review_quality_score r review)

/-- Modelled from the spec: `ProofDB::get_pkg_reviews_for_source`, the review
repository capability "all reviews for a given package source" — it yields the
stored package reviews whose package source equals the given source. -/
def get_pkg_reviews_for_source (c : Ctx) (source : String) : List Package :=
  c.reviews.filter (fun r => decide (r.package.id.id.source = source))

/-- Modelled from the spec: `crev_data::SOURCE_CRATES_IO`, the identifier of
the crates.io registry package source. -/
def SOURCE_CRATES_IO : String := "https://crates.io"

/-- The first loop of `convert_to_document` (src/crevette/src/lib.rs:237-247):
keep reviews with a body whose reviewer trust reaches the minimum, annotated
with the effective trust and the quality score. -/
def collect (c : Ctx) : List (TrustLevel × Nat × Package) :=
  (get_pkg_reviews_for_source c SOURCE_CRATES_IO).filterMap (fun r =>
    match r.review with
    | Option.none => Option.none
    | Option.some review =>
      let trust := c.trustOf r.common.fromId.id
      if trust < c.min_trust_level then Option.none
      else Option.some (trust, review_quality_score review, r))

/-- The per-package emission loop (src/crevette/src/lib.rs:258-401) as a
recursive fold threading the `last_review` marker. -/
def run_group (c : Ctx) : Option Marker → List (TrustLevel × Nat × Package) →
    List (Package × AuditEntry)
  | _, [] => []
  | last_review, e :: rest =>
    let s := step c last_review e
    (match s.1 with
     | Option.some p => [p]
     | Option.none => []) ++ run_group c s.2 rest

/-- The grouping key of the `all` map: `&r.package.id.id`. -/
def group_key (e : TrustLevel × Nat × Package) : PackageId :=
  e.2.2.package.id.id

/-- The distinct grouping keys, in first-appearance order. -/
def group_keys (l : List (TrustLevel × Nat × Package)) : List PackageId :=
  l.foldl (fun acc e => if group_key e ∈ acc then acc else acc ++ [group_key e]) []

/-- The sort comparator of `convert_to_document` (src/crevette/src/lib.rs:251-256):
version, trust, quality score and date, each descending. -/
def reviewCmp (a b : TrustLevel × Nat × Package) : Ordering :=
  (((compareVersion b.2.2.package.id.version a.2.2.package.id.version).then
        (cmpN b.1.rank a.1.rank)).then
      (cmpN b.2.1 a.2.1)).then
    (cmpN b.2.2.common.date a.2.2.common.date)

def reviewLe (a b : TrustLevel × Nat × Package) : Bool :=
  (reviewCmp a b).isLE

/-- Stable insertion: `x` goes before the first element it compares
less-or-equal to. -/
def insertBy {α : Type*} (le : α → α → Bool) (x : α) : List α → List α
  | [] => [x]
  | y :: ys => if le x y then x :: y :: ys else y :: insertBy le x ys

/-- Stable sort, modelling `slice::sort_by` (a stable sort): an element ends
up before another exactly when the comparator strictly orders it earlier or
they tie and it came first. -/
def sortBy {α : Type*} (le : α → α → Bool) : List α → List α
  | [] => []
  | x :: xs => insertBy le x (sortBy le xs)

/-- `convert_to_document` (src/crevette/src/lib.rs:233-408), instrumented to
keep each emitted audit entry paired with the review it was derived from:
trust-filter, group by package id, sort each group with the composite
comparator, then run the dedup/emit fold per group. -/
def convertPairs (c : Ctx) : List (Package × AuditEntry) :=
  let all := collect c
  ((group_keys all).map (fun k =>
    run_group c Option.none
      (sortBy reviewLe (all.filter (fun e => decide (group_key e = k)))))).flatten

/-- The `audits` map of the output document (a `BTreeMap` from crate name to
audit entries, keys in order), derived from the instrumented pipeline by
dropping the provenance tag. -/
def audits (c : Ctx) : List (String × List AuditEntry) :=
  let pairs := convertPairs c
  let names := (pairs.map (fun p => p.1.package.id.id.name)).foldl
    (fun acc n => if n ∈ acc then acc else acc ++ [n]) []
  (sortBy (fun a b => (compare a b).isLE) names).map (fun n =>
    (n, (pairs.filter (fun p => decide (p.1.package.id.id.name = n))).map (fun p => p.2)))

/-- The composite sort key of a group entry: version, trust, quality, date. -/
def sortKey (e : TrustLevel × Nat × Package) : Version × TrustLevel × Nat × Nat :=
  (e.2.2.package.id.version, e.1, e.2.1, e.2.2.common.date)

/-- The comparator of `reviewCmp` expressed on sort keys alone. -/
def cmpKey (x y : Version × TrustLevel × Nat × Nat) : Ordering :=
  (((compareVersion y.1 x.1).then (cmpN y.2.1.rank x.2.1.rank)).then
      (cmpN y.2.2.1 x.2.2.1)).then
    (cmpN y.2.2.2 x.2.2.2)

/-- Sample review used by concrete checks: the spec's worked example review of
package `foo` v1.2.0 — thoroughness Medium, understanding High, rating
Positive (quality 10). -/
def exReviewPos : Review := ⟨Level.medium, Level.high, Rating.positive⟩

/-- The negative sample review: thoroughness/understanding Low, rating
Negative. -/
def exReviewNeg : Review := ⟨Level.low, Level.low, Rating.negative⟩

/-- A sample issue of severity High. -/
def exIssue : Issue := ⟨Level.high, "RUSTSEC-1", "bad"⟩

def exVersion : Version := ⟨1, 2, 0, []⟩

/-- The spec's worked example: a review of crates.io package `foo` v1.2.0. -/
def exPkg : Package :=
  { common := ⟨⟨"alice-id"⟩, 100⟩,
    package := ⟨⟨⟨"https://crates.io", "foo"⟩, exVersion⟩, "", "none"⟩,
    diff_base := Option.none,
    review := Option.some exReviewPos,
    issues := [],
    advisories := [],
    flags := ⟨false⟩,
    comment := "looks fine" }

/-- A negative review of `foo` v1.0.0 carrying one issue of severity High. -/
def exPkgNeg : Package :=
  { common := ⟨⟨"bob-id"⟩, 50⟩,
    package := ⟨⟨⟨"https://crates.io", "foo"⟩, ⟨1, 0, 0, []⟩⟩, "", "none"⟩,
    diff_base := Option.none,
    review := Option.some exReviewNeg,
    issues := [exIssue],
    advisories := [],
    flags := ⟨false⟩,
    comment := "" }

/-- A positive review of `foo` v0.9.0 by a third reviewer. -/
def exPkgOld : Package :=
  { common := ⟨⟨"carol-id"⟩, 20⟩,
    package := ⟨⟨⟨"https://crates.io", "foo"⟩, ⟨0, 9, 0, []⟩⟩, "", "none"⟩,
    diff_base := Option.none,
    review := Option.some exReviewPos,
    issues := [],
    advisories := [],
    flags := ⟨false⟩,
    comment := "old" }

/-- A copy of the example review from a package source other than crates.io. -/
def exPkgOther : Package :=
  { common := ⟨⟨"alice-id"⟩, 100⟩,
    package := ⟨⟨⟨"https://example.org/registry", "foo"⟩, exVersion⟩, "", "none"⟩,
    diff_base := Option.none,
    review := Option.some exReviewPos,
    issues := [],
    advisories := [],
    flags := ⟨false⟩,
    comment := "looks fine" }

/-- A copy of the example review by an untrusted reviewer identity. -/
def exPkgLow : Package :=
  { common := ⟨⟨"mallory-id"⟩, 10⟩,
    package := ⟨⟨⟨"https://crates.io", "foo"⟩, exVersion⟩, "", "none"⟩,
    diff_base := Option.none,
    review := Option.some exReviewPos,
    issues := [],
    advisories := [],
    flags := ⟨false⟩,
    comment := "looks fine" }

/-- Base sample context: one review, trust oracle Medium for everyone,
minimum trust Low, resolvable digest, a verified GitHub profile URL. -/
def exCtx : Ctx :=
  { reviews := [exPkg],
    trustOf := fun _ => TrustLevel.medium,
    min_trust_level := TrustLevel.low,
    lookupUrl := fun _ => Option.some "https://github.com/alice/crev-proofs",
    digestOf := fun _ => Option.some "DIGEST",
    include_git_revs := false }

/-- Sample context whose digest store resolves nothing. -/
def exCtxNoDigest : Ctx := { exCtx with digestOf := fun _ => Option.none }

/-- Sample context whose verified profile URLs hit the hardcoded blocklist. -/
def exCtxBlocked : Ctx :=
  { exCtx with lookupUrl := fun _ => Option.some "https://github.com/MaulingMonkey/crev-proofs" }

/-- Sample context with one trusted and one untrusted reviewer. -/
def exCtxMixed : Ctx :=
  { exCtx with
    reviews := [exPkg, exPkgLow],
    trustOf := fun i => if i = "alice-id" then TrustLevel.medium else TrustLevel.tnone }

/-- Sample context also carrying a review from a non-crates.io source. -/
def exCtxOther : Ctx := { exCtx with reviews := [exPkg, exPkgOther] }

/-- The audit entry the pipeline emits for `exPkg` under `exCtx`. -/
def exEntry : AuditEntry :=
  { criteria := ["positive", "level-medium", "trust-medium", "safe-to-deploy", "safe-to-run"],
    who := "\"alice\" (https://github.com/alice)",
    notes := Option.some "looks fine",
    violation := Option.none,
    version := Option.some "1.2.0",
    delta := Option.none,
    aggregated_from := ["https://github.com/alice/crev-proofs#alice-id", "crev:review/DIGEST"] }

/-- The audit entry the pipeline emits for `exPkgNeg` under `exCtx`. -/
def exEntryNeg : AuditEntry :=
  { criteria := ["safe-to-run", "safe-to-deploy"],
    who := "\"alice\" (https://github.com/alice)",
    notes := Option.some "severity: high\nid: RUSTSEC-1\n\nbad",
    violation := Option.some "=1.0.0",
    version := Option.none,
    delta := Option.none,
    aggregated_from := ["https://github.com/alice/crev-proofs#bob-id", "crev:review/DIGEST"] }

/-- The dominance marker left behind by the example review (quality 10,
trust Medium, version 1.2.0). -/
def exMarker : Marker := ⟨10, TrustLevel.medium, exVersion⟩

/-- A dominating marker: quality 14, trust High, version 2.0.0. -/
def exMarkerHigh : Marker := ⟨14, TrustLevel.high, ⟨2, 0, 0, []⟩⟩

/-! ## Helper lemmas about the fold step -/

theorem step_review_none (c : Ctx) (last_review : Option Marker) (trust : TrustLevel)
    (q : Nat) (r : Package) (h : r.review = Option.none) :
    step c last_review (trust, q, r) = (Option.none, last_review) := by
  simp only [step, h]

theorem step_nonneg_none_iff (c : Ctx) (last_review : Option Marker) (trust : TrustLevel)
    (q : Nat) (r : Package) (review : Review)
    (hrev : r.review = Option.some review) (hneg : review.rating ≠ Rating.negative) :
    (step c last_review (trust, q, r)).1 = Option.none ↔
      (trust_term? trust = Option.none ∨
       (∃ tt, trust_term? trust = Option.some tt ∧ q < tt + rating_term review.rating) ∨
       dominatedBy last_review trust q r.package.id.version = true ∨
       c.digestOf r = Option.none) := by
  have hv : decide (review.rating = Rating.negative) = false := by
    simp [hneg]
  simp only [step, hrev, hv]
  cases htt : trust_term? trust with
  | none => simp
  | some tt =>
    simp only [Option.some.injEq]
    by_cases hq : q < tt + rating_term review.rating
    · simp [hq]
    · simp only [if_neg hq]
      by_cases hdom : dominatedBy last_review trust q r.package.id.version = true
      · simp [hdom, hq]
      · simp only [Bool.not_eq_true] at hdom
        simp only [hdom, if_false, Bool.false_and]
        cases hdig : c.digestOf r with
        | none => simp [hq, hdig]
        | some d => simp [hq, hdig]

theorem dominatedBy_iff (last_review : Option Marker) (trust : TrustLevel) (q : Nat)
    (v : Version) :
    dominatedBy last_review trust q v = true ↔
      ∃ m, last_review = Option.some m ∧ q ≤ m.quality ∧
        ((v < m.version ∧ trust ≤ m.trust) ∨ (v ≤ m.version ∧ trust < m.trust)) := by
  cases last_review with
  | none => simp [dominatedBy]
  | some m =>
    simp only [dominatedBy, ge_iff_le, Option.some.injEq]
    by_cases hq : q ≤ m.quality
    · simp only [if_pos hq, Bool.or_eq_true, Bool.and_eq_true, decide_eq_true_eq]
      constructor
      · rintro (⟨h1, h2⟩ | ⟨h1, h2⟩)
        · exact ⟨m, rfl, hq, Or.inl ⟨h1, h2⟩⟩
        · exact ⟨m, rfl, hq, Or.inr ⟨h1, h2⟩⟩
      · rintro ⟨m', rfl, -, (⟨h1, h2⟩ | ⟨h1, h2⟩)⟩
        · exact Or.inl ⟨h1, h2⟩
        · exact Or.inr ⟨h1, h2⟩
    · simp only [if_neg hq]
      constructor
      · intro h; exact absurd h (by simp)
      · rintro ⟨m', rfl, hq', -⟩; exact absurd hq' hq

theorem step_cases (c : Ctx) (last_review : Option Marker) (trust : TrustLevel) (q : Nat)
    (r : Package) (review : Review) (hrev : r.review = Option.some review) :
    step c last_review (trust, q, r) = (Option.none, last_review) ∨
      ∃ entry, step c last_review (trust, q, r) =
        (Option.some (r, entry), next_marker trust q r review) := by
  simp only [step, hrev]
  repeat' split
  all_goals first
    | (left; rfl)
    | (right; exact ⟨_, rfl⟩)

theorem foldl_maxL_high (l : List Level) : l.foldl Level.maxL Level.high = Level.high := by
  induction l with
  | nil => rfl
  | cons x xs ih =>
    have hx : Level.maxL Level.high x = Level.high := by cases x <;> rfl
    rw [List.foldl_cons, hx, ih]

/-! ## Helper lemmas about membership in the pipeline output -/

theorem mem_insertBy {α : Type*} (le : α → α → Bool) (x a : α) (l : List α) :
    a ∈ insertBy le x l ↔ a = x ∨ a ∈ l := by
  induction l with
  | nil => simp [insertBy]
  | cons y ys ih =>
    simp only [insertBy]
    split
    · simp
    · simp only [List.mem_cons, ih]
      tauto

theorem mem_sortBy {α : Type*} (le : α → α → Bool) (a : α) (l : List α) :
    a ∈ sortBy le l ↔ a ∈ l := by
  induction l with
  | nil => simp [sortBy]
  | cons y ys ih =>
    simp only [sortBy, mem_insertBy, ih, List.mem_cons]

theorem run_group_src (c : Ctx) (last_review : Option Marker)
    (l : List (TrustLevel × Nat × Package)) :
    ∀ p ∈ run_group c last_review l, ∃ e ∈ l, p.1 = e.2.2 := by
  induction l generalizing last_review with
  | nil => intro p hp; simp [run_group] at hp
  | cons e rest ih =>
    intro p hp
    obtain ⟨trust, q, r⟩ := e
    simp only [run_group, List.mem_append] at hp
    rcases hp with hp | hp
    · refine ⟨(trust, q, r), List.mem_cons_self _ _, ?_⟩
      cases hrev : r.review with
      | none =>
        rw [step_review_none c last_review trust q r hrev] at hp
        simp at hp
      | some review =>
        rcases step_cases c last_review trust q r review hrev with hs | ⟨entry, hs⟩
        · rw [hs] at hp; simp at hp
        · rw [hs] at hp
          simp only [List.mem_singleton] at hp
          subst hp; rfl
    · obtain ⟨e', he', hpe⟩ := ih _ p hp
      exact ⟨e', List.mem_cons_of_mem _ he', hpe⟩

theorem collect_src (c : Ctx) (e : TrustLevel × Nat × Package) (he : e ∈ collect c) :
    e.2.2 ∈ c.reviews ∧ e.2.2.package.id.id.source = SOURCE_CRATES_IO ∧
      e.1 = c.trustOf e.2.2.common.fromId.id ∧ ¬ e.1 < c.min_trust_level := by
  simp only [collect, List.mem_filterMap] at he
  obtain ⟨r, hr, hf⟩ := he
  simp only [get_pkg_reviews_for_source, List.mem_filter, decide_eq_true_eq] at hr
  cases hrev : r.review with
  | none => rw [hrev] at hf; cases hf
  | some review =>
    rw [hrev] at hf
    simp only at hf
    split at hf
    · cases hf
    · injection hf with hf
      subst hf
      exact ⟨hr.1, hr.2, rfl, by assumption⟩

theorem convertPairs_src (c : Ctx) (p : Package × AuditEntry) (hp : p ∈ convertPairs c) :
    p.1 ∈ c.reviews ∧ p.1.package.id.id.source = SOURCE_CRATES_IO ∧
      ¬ c.trustOf p.1.common.fromId.id < c.min_trust_level := by
  simp only [convertPairs, List.mem_flatten, List.mem_map] at hp
  obtain ⟨g, ⟨k, hk, hg⟩, hpg⟩ := hp
  subst hg
  obtain ⟨e, he, hpe⟩ := run_group_src _ _ _ p hpg
  rw [mem_sortBy] at he
  rw [List.mem_filter] at he
  obtain ⟨he, -⟩ := he
  obtain ⟨h1, h2, h3, h4⟩ := collect_src c e he
  rw [hpe]
  exact ⟨h1, h2, h3 ▸ h4⟩

theorem audits_from_pairs (c : Ctx) (x : String × List AuditEntry) (hx : x ∈ audits c)
    (a : AuditEntry) (ha : a ∈ x.2) : ∃ p ∈ convertPairs c, p.2 = a := by
  simp only [audits, List.mem_map] at hx
  obtain ⟨n, hn, hxn⟩ := hx
  rw [mem_sortBy] at hn
  subst hxn
  simp only [List.mem_map, List.mem_filter] at ha
  obtain ⟨p, ⟨hp, -⟩, hpa⟩ := ha
  exact ⟨p, hp, hpa⟩

/-! ## Helper lemmas about the sort comparator -/

theorem then_eq_eq (o p : Ordering) :
    o.then p = Ordering.eq ↔ o = Ordering.eq ∧ p = Ordering.eq := by
  cases o <;> simp [Ordering.then]

theorem then_eq_lt (o p : Ordering) :
    o.then p = Ordering.lt ↔ o = Ordering.lt ∨ (o = Ordering.eq ∧ p = Ordering.lt) := by
  cases o <;> simp [Ordering.then]

theorem then_swap (o p : Ordering) : (o.then p).swap = o.swap.then p.swap := by
  cases o <;> cases p <;> rfl

theorem isLE_iff (o : Ordering) : o.isLE = true ↔ o = Ordering.lt ∨ o = Ordering.eq := by
  cases o <;> simp [Ordering.isLE]

theorem cmpN_eq_lt (a b : Nat) : cmpN a b = Ordering.lt ↔ a < b := by
  unfold cmpN
  split_ifs <;> simp <;> omega

theorem cmpN_eq_eq (a b : Nat) : cmpN a b = Ordering.eq ↔ a = b := by
  unfold cmpN
  split_ifs <;> simp <;> omega

theorem cmpN_swap (a b : Nat) : (cmpN a b).swap = cmpN b a := by
  unfold cmpN
  split_ifs <;> first | rfl | omega

theorem cmpPreRest_eq_iff (a : List Nat) : ∀ b, cmpPreRest a b = Ordering.eq ↔ a = b := by
  induction a with
  | nil => intro b; cases b <;> simp [cmpPreRest]
  | cons x xs ih =>
    intro b
    cases b with
    | nil => simp [cmpPreRest]
    | cons y ys =>
      simp only [cmpPreRest, then_eq_eq, cmpN_eq_eq, ih, List.cons.injEq]

theorem cmpPreRest_swap (a : List Nat) : ∀ b, (cmpPreRest a b).swap = cmpPreRest b a := by
  induction a with
  | nil => intro b; cases b <;> rfl
  | cons x xs ih =>
    intro b
    cases b with
    | nil => rfl
    | cons y ys => simp only [cmpPreRest, then_swap, cmpN_swap, ih]

theorem cmpPreRest_lt_trans (a : List Nat) : ∀ b c,
    cmpPreRest a b = Ordering.lt → cmpPreRest b c = Ordering.lt →
    cmpPreRest a c = Ordering.lt := by
  induction a with
  | nil =>
    intro b c hab hbc
    cases b with
    | nil => cases hab
    | cons y ys =>
      cases c with
      | nil => cases hbc
      | cons z zs => rfl
  | cons x xs ih =>
    intro b c hab hbc
    cases b with
    | nil => cases hab
    | cons y ys =>
      cases c with
      | nil => cases hbc
      | cons z zs =>
        simp only [cmpPreRest, then_eq_lt, cmpN_eq_lt, cmpN_eq_eq] at hab hbc ⊢
        rcases hab with h | ⟨rfl, h⟩ <;> rcases hbc with g | ⟨hg, g⟩
        · left; omega
        · subst hg; left; omega
        · left; omega
        · subst hg; exact Or.inr ⟨rfl, ih _ _ h g⟩

theorem cmpPre_eq_iff (a b : List Nat) : cmpPre a b = Ordering.eq ↔ a = b := by
  cases a with
  | nil => cases b <;> simp [cmpPre]
  | cons x xs =>
    cases b with
    | nil => simp [cmpPre]
    | cons y ys => exact cmpPreRest_eq_iff (x :: xs) (y :: ys)

theorem cmpPre_swap (a b : List Nat) : (cmpPre a b).swap = cmpPre b a := by
  cases a with
  | nil => cases b <;> rfl
  | cons x xs =>
    cases b with
    | nil => rfl
    | cons y ys => exact cmpPreRest_swap (x :: xs) (y :: ys)

theorem cmpPre_lt_trans (a b c : List Nat) :
    cmpPre a b = Ordering.lt → cmpPre b c = Ordering.lt → cmpPre a c = Ordering.lt := by
  cases a with
  | nil =>
    cases b with
    | nil => intro h _; cases h
    | cons y ys => intro h _; cases h
  | cons x xs =>
    cases b with
    | nil => cases c <;> (intro _ h2; cases h2)
    | cons y ys =>
      cases c with
      | nil => intro _ _; rfl
      | cons z zs => exact cmpPreRest_lt_trans (x :: xs) (y :: ys) (z :: zs)

theorem compareVersion_eq_iff (a b : Version) : compareVersion a b = Ordering.eq ↔ a = b := by
  obtain ⟨a1, a2, a3, a4⟩ := a
  obtain ⟨b1, b2, b3, b4⟩ := b
  simp only [compareVersion, then_eq_eq, cmpN_eq_eq, cmpPre_eq_iff, Version.mk.injEq]

theorem compareVersion_swap (a b : Version) :
    (compareVersion a b).swap = compareVersion b a := by
  simp only [compareVersion, then_swap, cmpN_swap, cmpPre_swap]

theorem compareVersion_lt_iff (a b : Version) :
    compareVersion a b = Ordering.lt ↔
      a.major < b.major ∨ (a.major = b.major ∧ (a.minor < b.minor ∨ (a.minor = b.minor ∧
        (a.patch < b.patch ∨ (a.patch = b.patch ∧ cmpPre a.pre b.pre = Ordering.lt))))) := by
  simp only [compareVersion, then_eq_lt, cmpN_eq_lt, cmpN_eq_eq]

theorem compareVersion_lt_trans (a b c : Version) :
    compareVersion a b = Ordering.lt → compareVersion b c = Ordering.lt →
    compareVersion a c = Ordering.lt := by
  simp only [compareVersion_lt_iff]
  intro hab hbc
  rcases hab with h1 | ⟨e1, h2 | ⟨e2, h3 | ⟨e3, h4⟩⟩⟩ <;>
    rcases hbc with g1 | ⟨f1, g2 | ⟨f2, g3 | ⟨f3, g4⟩⟩⟩ <;>
    first
      | (left; omega)
      | (right; refine ⟨by omega, ?_⟩
         first
           | (left; omega)
           | (right; refine ⟨by omega, ?_⟩
              first
                | (left; omega)
                | (right; exact ⟨by omega, cmpPre_lt_trans _ _ _ h4 g4⟩)))

theorem reviewCmp_eq_cmpKey (a b : TrustLevel × Nat × Package) :
    reviewCmp a b = cmpKey (sortKey a) (sortKey b) := rfl

theorem trustLevel_rank_inj (a b : TrustLevel) : a.rank = b.rank ↔ a = b := by
  cases a <;> cases b <;> decide

theorem cmpKey_eq_iff (x y : Version × TrustLevel × Nat × Nat) :
    cmpKey x y = Ordering.eq ↔ x = y := by
  obtain ⟨x1, x2, x3, x4⟩ := x
  obtain ⟨y1, y2, y3, y4⟩ := y
  simp only [cmpKey, then_eq_eq, cmpN_eq_eq, compareVersion_eq_iff, trustLevel_rank_inj,
    Prod.mk.injEq]
  constructor
  · rintro ⟨⟨⟨e1, e2⟩, e3⟩, e4⟩
    exact ⟨e1.symm, e2.symm, e3.symm, e4.symm⟩
  · rintro ⟨e1, e2, e3, e4⟩
    exact ⟨⟨⟨e1.symm, e2.symm⟩, e3.symm⟩, e4.symm⟩

theorem cmpKey_swap (x y : Version × TrustLevel × Nat × Nat) :
    (cmpKey x y).swap = cmpKey y x := by
  simp only [cmpKey, then_swap, cmpN_swap, compareVersion_swap]

theorem cmpKey_lt_iff_rank (x y : Version × TrustLevel × Nat × Nat) :
    cmpKey x y = Ordering.lt ↔
      compareVersion y.1 x.1 = Ordering.lt ∨ (y.1 = x.1 ∧
        (y.2.1.rank < x.2.1.rank ∨ (y.2.1.rank = x.2.1.rank ∧
          (y.2.2.1 < x.2.2.1 ∨ (y.2.2.1 = x.2.2.1 ∧ y.2.2.2 < x.2.2.2))))) := by
  simp only [cmpKey, then_eq_lt, then_eq_eq, cmpN_eq_lt, cmpN_eq_eq, compareVersion_eq_iff]
  tauto

theorem cmpKey_lt_trans (x y z : Version × TrustLevel × Nat × Nat) :
    cmpKey x y = Ordering.lt → cmpKey y z = Ordering.lt → cmpKey x z = Ordering.lt := by
  simp only [cmpKey_lt_iff_rank]
  intro h g
  rcases h with h1 | ⟨e1, h2⟩ <;> rcases g with g1 | ⟨f1, g2⟩
  · exact Or.inl (compareVersion_lt_trans _ _ _ g1 h1)
  · exact Or.inl (by rw [f1]; exact h1)
  · exact Or.inl (by rw [← e1]; exact g1)
  · exact Or.inr ⟨f1.trans e1, by omega⟩

theorem cmpKey_isLE_trans (x y z : Version × TrustLevel × Nat × Nat) :
    (cmpKey x y).isLE = true → (cmpKey y z).isLE = true → (cmpKey x z).isLE = true := by
  rw [isLE_iff, isLE_iff, isLE_iff]
  rintro (h | h) (g | g)
  · exact Or.inl (cmpKey_lt_trans _ _ _ h g)
  · rw [cmpKey_eq_iff] at g
    subst g
    exact Or.inl h
  · rw [cmpKey_eq_iff] at h
    subst h
    exact Or.inl g
  · rw [cmpKey_eq_iff] at h g
    exact Or.inr (by rw [cmpKey_eq_iff]; exact h.trans g)

/-! ## Claim theorems -/

/-- C1 (amended): during the fold, a non-Negative review that passed the
quality threshold *and whose proof digest resolves* is dropped exactly when a
best-so-far marker exists, its quality is at least the candidate's, and either
the marker's version is strictly newer with at least the candidate's trust, or
at least as new with strictly more trust; and for a Negative-rated review the
emission decision ignores the marker entirely, so it is never dropped by the
dominance check. -/
theorem c1_dominance_dedup (c : Ctx) (last_review : Option Marker) (trust : TrustLevel)
    (q : Nat) (r : Package) (review : Review) (hrev : r.review = Option.some review) :
    (review.rating ≠ Rating.negative →
      ∀ tt, trust_term? trust = Option.some tt →
      q ≥ tt + rating_term review.rating →
      c.digestOf r ≠ Option.none →
      ((step c last_review (trust, q, r)).1 = Option.none ↔
        ∃ m, last_review = Option.some m ∧ q ≤ m.quality ∧
          ((r.package.id.version < m.version ∧ trust ≤ m.trust) ∨
           (r.package.id.version ≤ m.version ∧ trust < m.trust)))) ∧
    (review.rating = Rating.negative →
      (step c last_review (trust, q, r)).1 = (step c Option.none (trust, q, r)).1) := by
  constructor
  · intro hneg tt htt hq hdig
    rw [step_nonneg_none_iff c last_review trust q r review hrev hneg]
    constructor
    · rintro (h1 | ⟨tt', htt', hlt⟩ | hdom | hdign)
      · rw [htt] at h1; cases h1
      · rw [htt] at htt'
        injection htt' with h
        omega
      · exact (dominatedBy_iff _ _ _ _).mp hdom
      · exact absurd hdign hdig
    · intro h
      exact Or.inr (Or.inr (Or.inl ((dominatedBy_iff _ _ _ _).mpr h)))
  · intro hneg
    have hv : decide (review.rating = Rating.negative) = true := by simp [hneg]
    simp only [step, hrev, hv, Bool.true_and, if_true]
    repeat' split
    all_goals rfl

/-- C1 fails as stated: under a digest store that resolves nothing, the
example non-Negative review passes the quality threshold (quality 10,
threshold 3 + 1) and no marker dominates it, yet it is dropped — so "dropped
exactly when pareto-dominated" does not hold without the digest proviso. -/
theorem c1_counterexample :
    exPkg.review = Option.some exReviewPos ∧
    exReviewPos.rating ≠ Rating.negative ∧
    trust_term? TrustLevel.medium = Option.some 3 ∧
    10 ≥ 3 + rating_term exReviewPos.rating ∧
    dominatedBy Option.none TrustLevel.medium 10 exPkg.package.id.version = false ∧
    (step exCtxNoDigest Option.none (TrustLevel.medium, 10, exPkg)).1 = Option.none := by
  decide

/-- Witness for C1: a dominated endorsement is dropped under a dominating
marker, and a violation's emission does not depend on the marker. -/
theorem c1_witness :
    (step exCtx (Option.some exMarkerHigh) (TrustLevel.medium, 10, exPkg)).1 = Option.none ∧
    (step exCtx (Option.some exMarkerHigh) (TrustLevel.medium, 2, exPkgNeg)).1 =
      (step exCtx Option.none (TrustLevel.medium, 2, exPkgNeg)).1 := by
  constructor
  · exact ((c1_dominance_dedup exCtx (Option.some exMarkerHigh) TrustLevel.medium 10 exPkg
      exReviewPos rfl).1 (by decide) 3 rfl (by decide) (by decide)).mpr
      ⟨exMarkerHigh, rfl, by decide, Or.inl ⟨by decide, by decide⟩⟩
  · exact (c1_dominance_dedup exCtx (Option.some exMarkerHigh) TrustLevel.medium 2 exPkgNeg
      exReviewNeg rfl).2 rfl

/-- C2 (amended): a skipped review leaves the best-so-far marker unchanged;
every emitted review overwrites the marker, setting it to the review's
(quality, trust, version) exactly when the review qualifies as a future
dominator (rated above Neutral, no diff_base, non-prerelease version) and
clearing it to empty otherwise — in particular an emitted violation clears
the marker. -/
theorem c2_marker_update (c : Ctx) (last_review : Option Marker)
    (trust : TrustLevel) (q : Nat) (r : Package) :
    ((step c last_review (trust, q, r)).1 = Option.none →
      (step c last_review (trust, q, r)).2 = last_review) ∧
    (∀ review, r.review = Option.some review →
      ∀ p, (step c last_review (trust, q, r)).1 = Option.some p →
        (step c last_review (trust, q, r)).2 = next_marker trust q r review) ∧
    (∀ review, next_marker trust q r review =
      if review.rating > Rating.neutral ∧ r.diff_base = Option.none ∧
          r.package.id.version.pre = []
        then Option.some ⟨q, trust, r.package.id.version⟩ else Option.none) := by
  refine ⟨?_, ?_, ?_⟩
  · intro h
    cases hrev : r.review with
    | none => rw [step_review_none c last_review trust q r hrev]
    | some review =>
      rcases step_cases c last_review trust q r review hrev with hs | ⟨entry, hs⟩
      · rw [hs]
      · rw [hs] at h; cases h
  · intro review hrev p hp
    rcases step_cases c last_review trust q r review hrev with hs | ⟨entry, hs⟩
    · rw [hs] at hp; cases hp
    · rw [hs]
  · intro review
    simp only [next_marker, Bool.and_eq_true, decide_eq_true_eq]
    simp [and_assoc]

/-- C2 fails as stated: an emitted Negative-rated (violation) review does
modify the marker — processing it with a marker present clears the marker to
empty, although the violation does not itself qualify as a future dominator. -/
theorem c2_counterexample :
    exPkgNeg.review = Option.some exReviewNeg ∧
    exReviewNeg.rating = Rating.negative ∧
    (step exCtx (Option.some exMarker) (TrustLevel.medium, 2, exPkgNeg)).1 =
      Option.some (exPkgNeg, exEntryNeg) ∧
    (step exCtx (Option.some exMarker) (TrustLevel.medium, 2, exPkgNeg)).2 ≠
      Option.some exMarker := by
  decide

/-- Witness for C2: a skipped review (unresolvable digest) leaves the marker
unchanged, and an emitted qualifying review writes `next_marker`. -/
theorem c2_witness :
    (step exCtxNoDigest Option.none (TrustLevel.medium, 10, exPkg)).2 = Option.none ∧
    (step exCtx Option.none (TrustLevel.medium, 10, exPkg)).2 =
      next_marker TrustLevel.medium 10 exPkg exReviewPos := by
  constructor
  · exact (c2_marker_update exCtxNoDigest Option.none TrustLevel.medium 10 exPkg).1 (by decide)
  · exact (c2_marker_update exCtx Option.none TrustLevel.medium 10 exPkg).2.1 exReviewPos rfl
      (exPkg, exEntry) (by decide)

/-- C3: for a non-Negative review, the minimum acceptable quality threshold is
trust-term plus rating-term with trust-term Low ↦ 7, Medium ↦ 3, High ↦ 1
(Distrust and None skip unconditionally) and rating-term Neutral ↦ 3,
Positive ↦ 1, Strong ↦ 0; a review whose quality score is strictly below the
threshold produces no audit entry. -/
theorem c3_quality_threshold (c : Ctx) (last_review : Option Marker) (trust : TrustLevel)
    (q : Nat) (r : Package) (review : Review)
    (hrev : r.review = Option.some review) (hneg : review.rating ≠ Rating.negative) :
    (trust_term? TrustLevel.low = Option.some 7 ∧
     trust_term? TrustLevel.medium = Option.some 3 ∧
     trust_term? TrustLevel.high = Option.some 1 ∧
     trust_term? TrustLevel.distrust = Option.none ∧
     trust_term? TrustLevel.tnone = Option.none ∧
     rating_term Rating.neutral = 3 ∧
     rating_term Rating.positive = 1 ∧
     rating_term Rating.strong = 0) ∧
    ((trust = TrustLevel.distrust ∨ trust = TrustLevel.tnone) →
      (step c last_review (trust, q, r)).1 = Option.none) ∧
    (∀ tt, trust_term? trust = Option.some tt →
      q < tt + rating_term review.rating →
      (step c last_review (trust, q, r)).1 = Option.none) := by
  refine ⟨by decide, ?_, ?_⟩
  · intro htrust
    rw [step_nonneg_none_iff c last_review trust q r review hrev hneg]
    rcases htrust with rfl | rfl
    · exact Or.inl rfl
    · exact Or.inl rfl
  · intro tt htt hq
    rw [step_nonneg_none_iff c last_review trust q r review hrev hneg]
    exact Or.inr (Or.inl ⟨tt, htt, hq⟩)

/-- Witness for C3: a reviewer of trust None is skipped unconditionally and a
Low-trust Positive review of quality 4 is below its threshold 7 + 1. -/
theorem c3_witness :
    (step exCtx Option.none (TrustLevel.tnone, 10, exPkg)).1 = Option.none ∧
    (step exCtx Option.none (TrustLevel.low, 4, exPkg)).1 = Option.none := by
  constructor
  · exact (c3_quality_threshold exCtx Option.none TrustLevel.tnone 10 exPkg exReviewPos rfl
      (by decide)).2.1 (Or.inr rfl)
  · exact (c3_quality_threshold exCtx Option.none TrustLevel.low 4 exPkg exReviewPos rfl
      (by decide)).2.2 7 rfl (by decide)

/-- C4: the spec's worked example — package `foo` v1.2.0, trust Medium, rating
Positive, thoroughness Medium, understanding High (quality 10), resolvable
digest, no diff_base, non-prerelease, unmaintained unset, no preceding
dominating review — yields an audit entry whose criteria list is exactly
["positive", "level-medium", "trust-medium", "safe-to-deploy", "safe-to-run"],
both at the classifier and through the full pipeline. -/
theorem c4_example_criteria :
    review_quality_score exReviewPos = 10 ∧
    criteria_for_non_negative_review TrustLevel.medium exPkg exReviewPos 10 =
      ["positive", "level-medium", "trust-medium", "safe-to-deploy", "safe-to-run"] ∧
    (convertPairs exCtx).map (fun p => p.2.criteria) =
      [["positive", "level-medium", "trust-medium", "safe-to-deploy", "safe-to-run"]] := by
  refine ⟨rfl, by decide, by decide⟩

/-- C5 (amended): the derived quality score is the sum of the thoroughness and
understanding scores under the table None ↦ 0, Low ↦ 1, Medium ↦ 3, High ↦ 7,
and for every combination of levels the result lies in
{0,1,2,3,4,6,7,8,10,14}. -/
theorem c5_quality_score_range :
    (∀ review : Review, review_quality_score review =
        level_as_score review.thoroughness + level_as_score review.understanding) ∧
    (∀ review : Review,
      review_quality_score review ∈ ([0, 1, 2, 3, 4, 6, 7, 8, 10, 14] : List Nat)) := by
  refine ⟨fun review => rfl, fun review => ?_⟩
  obtain ⟨t, u, ra⟩ := review
  cases t <;> cases u <;> cases ra <;> decide

/-- C5 fails as stated: a review with thoroughness None and understanding Low
has quality score 0 + 1 = 1, which is not in the claimed set
{0,2,4,6,8,10,14}. -/
theorem c5_counterexample :
    review_quality_score ⟨Level.wnone, Level.low, Rating.positive⟩ = 1 ∧
    ¬ review_quality_score ⟨Level.wnone, Level.low, Rating.positive⟩ ∈
        ([0, 2, 4, 6, 8, 10, 14] : List Nat) := by
  decide

/-- C6: a review whose reviewer's effective trust is strictly below the
configured minimum contributes no audit entry anywhere in the output — it is
the source of no emitted pair, and every entry in the audits map comes from an
emitted pair whose source review it is not. -/
theorem c6_trust_gate (c : Ctx) (r : Package) (_hr : r ∈ c.reviews)
    (hlow : c.trustOf r.common.fromId.id < c.min_trust_level) :
    (∀ p ∈ convertPairs c, p.1 ≠ r) ∧
    (∀ x ∈ audits c, ∀ a ∈ x.2, ∃ p ∈ convertPairs c, p.2 = a ∧ p.1 ≠ r) := by
  have key : ∀ p ∈ convertPairs c, p.1 ≠ r := by
    intro p hp heq
    obtain ⟨-, -, htrust⟩ := convertPairs_src c p hp
    rw [heq] at htrust
    exact htrust hlow
  refine ⟨key, fun x hx a ha => ?_⟩
  obtain ⟨p, hp, hpa⟩ := audits_from_pairs c x hx a ha
  exact ⟨p, hp, hpa, key p hp⟩

/-- Witness for C6: in a context with a trusted and an untrusted reviewer, the
untrusted review is in the snapshot and below the minimum, the pipeline emits
the trusted review's entry, and that entry is not derived from the untrusted
review. -/
theorem c6_witness :
    exPkgLow ∈ exCtxMixed.reviews ∧
    exCtxMixed.trustOf exPkgLow.common.fromId.id < exCtxMixed.min_trust_level ∧
    (exPkg, exEntry) ∈ convertPairs exCtxMixed ∧
    (exPkg, exEntry).1 ≠ exPkgLow := by
  refine ⟨by decide, by decide, by decide, ?_⟩
  exact (c6_trust_gate exCtxMixed exPkgLow (by decide) (by decide)).1 (exPkg, exEntry) (by decide)

/-- C7: a Negative-rated review carrying exactly one issue, of severity High,
with a resolvable digest and a non-blocklisted reviewer, is emitted with
criteria exactly ["safe-to-run", "safe-to-deploy"], a violation marker pinning
exactly the review's version, and neither the version nor the delta field
set. -/
theorem c7_violation_criteria (c : Ctx) (last_review : Option Marker) (trust : TrustLevel)
    (q : Nat) (r : Package) (review : Review) (i : Issue) (d : String)
    (hrev : r.review = Option.some review) (hneg : review.rating = Rating.negative)
    (hiss : r.issues = [i]) (hsev : i.severity = Level.high)
    (hdig : c.digestOf r = Option.some d)
    (hblock : blocked_url (c.lookupUrl r.common.fromId.id) = false) :
    ((step c last_review (trust, q, r)).1).isSome = true ∧
    (∀ p, (step c last_review (trust, q, r)).1 = Option.some p →
      p.1 = r ∧ p.2.criteria = ["safe-to-run", "safe-to-deploy"] ∧
      p.2.violation = Option.some ("=" ++ versionToString r.package.id.version) ∧
      p.2.version = Option.none ∧ p.2.delta = Option.none) := by
  have hv : decide (review.rating = Rating.negative) = true := by simp [hneg]
  have hsevs : violation_severity r = Level.high := by
    simp only [violation_severity, hiss, List.map_cons, List.map_nil, hsev,
      List.cons_append, List.nil_append, maxLevel?]
    rw [foldl_maxL_high]
  have hcrit : violation_criteria r = ["safe-to-run", "safe-to-deploy"] := by
    simp only [violation_criteria, hsevs]
  simp only [step, hrev, hv, Bool.true_and, hblock, if_true, hdig]
  simp only [Bool.false_eq_true, if_false]
  constructor
  · rfl
  · intro p hp
    injection hp with hp
    subst hp
    exact ⟨rfl, hcrit, rfl, rfl, rfl⟩

/-- Witness for C7: the sample negative review with one High-severity issue is
emitted, and its entry pins `=1.0.0` with no version or delta. -/
theorem c7_witness :
    ((step exCtx Option.none (TrustLevel.medium, 2, exPkgNeg)).1).isSome = true ∧
    (exPkgNeg, exEntryNeg).1 = exPkgNeg ∧
    exEntryNeg.criteria = ["safe-to-run", "safe-to-deploy"] ∧
    exEntryNeg.violation =
      Option.some ("=" ++ versionToString exPkgNeg.package.id.version) ∧
    exEntryNeg.version = Option.none ∧ exEntryNeg.delta = Option.none := by
  have h := c7_violation_criteria exCtx Option.none TrustLevel.medium 2 exPkgNeg exReviewNeg
    exIssue "DIGEST" rfl rfl rfl rfl rfl (by decide)
  have h3 := h.2 (exPkgNeg, exEntryNeg) (by decide)
  exact ⟨h.1, h3.1 ▸ rfl, h3.2.1, h3.2.2.1, h3.2.2.2.1, h3.2.2.2.2⟩

/-- C8: the sort comparator orders one annotated review before another exactly
when, evaluated in order until a tie breaks, the package version, then the
trust level, then the quality score, then the submission date is greater; and
the comparator is total, transitive, and ties exactly on equal
(version, trust, quality, date) tuples — a total order on sort keys. -/
theorem c8_comparator_total_order (a b c' : TrustLevel × Nat × Package) :
    (reviewCmp a b = Ordering.lt ↔
      (b.2.2.package.id.version < a.2.2.package.id.version ∨
       (b.2.2.package.id.version = a.2.2.package.id.version ∧
        (b.1 < a.1 ∨ (b.1 = a.1 ∧
         (b.2.1 < a.2.1 ∨ (b.2.1 = a.2.1 ∧
          b.2.2.common.date < a.2.2.common.date))))))) ∧
    ((reviewCmp a b).isLE = true ∨ (reviewCmp b a).isLE = true) ∧
    ((reviewCmp a b).isLE = true → (reviewCmp b c').isLE = true →
      (reviewCmp a c').isLE = true) ∧
    (reviewCmp a b = Ordering.eq ↔ sortKey a = sortKey b) := by
  refine ⟨?_, ?_, ?_, ?_⟩
  · rw [reviewCmp_eq_cmpKey, cmpKey_lt_iff_rank]
    simp only [sortKey]
    constructor
    · rintro (h1 | ⟨e1, h2 | ⟨e2, h⟩⟩)
      · exact Or.inl h1
      · exact Or.inr ⟨e1, Or.inl h2⟩
      · exact Or.inr ⟨e1, Or.inr ⟨(trustLevel_rank_inj _ _).mp e2, h⟩⟩
    · rintro (h1 | ⟨e1, h2 | ⟨e2, h⟩⟩)
      · exact Or.inl h1
      · exact Or.inr ⟨e1, Or.inl h2⟩
      · exact Or.inr ⟨e1, Or.inr ⟨(trustLevel_rank_inj _ _).mpr e2, h⟩⟩
  · rw [reviewCmp_eq_cmpKey, reviewCmp_eq_cmpKey, ← cmpKey_swap (sortKey a) (sortKey b)]
    cases cmpKey (sortKey a) (sortKey b) <;> simp [Ordering.swap, Ordering.isLE]
  · rw [reviewCmp_eq_cmpKey, reviewCmp_eq_cmpKey, reviewCmp_eq_cmpKey]
    exact cmpKey_isLE_trans _ _ _
  · rw [reviewCmp_eq_cmpKey, cmpKey_eq_iff]

/-- Witness for C8: the example v1.2.0 review sorts strictly before the
v1.0.0 review, and transitivity chains through the v0.9.0 review. -/
theorem c8_witness :
    reviewCmp (TrustLevel.medium, 10, exPkg) (TrustLevel.medium, 2, exPkgNeg) = Ordering.lt ∧
    (reviewCmp (TrustLevel.medium, 10, exPkg) (TrustLevel.low, 2, exPkgOld)).isLE = true := by
  constructor
  · exact (c8_comparator_total_order (TrustLevel.medium, 10, exPkg)
      (TrustLevel.medium, 2, exPkgNeg) (TrustLevel.low, 2, exPkgOld)).1.mpr
      (Or.inl (by decide))
  · exact (c8_comparator_total_order (TrustLevel.medium, 10, exPkg)
      (TrustLevel.medium, 2, exPkgNeg) (TrustLevel.low, 2, exPkgOld)).2.2.1
      (by decide) (by decide)

/-- C9: a violation (Negative-rated review) whose reviewer's verified profile
URL contains the hardcoded blocklist substring is never emitted, for every
marker state; and a non-Negative review's emission decision is fully
characterised by the threshold, dominance and digest conditions — the
blocklist plays no part in it. -/
theorem c9_blocklist (c : Ctx) (last_review : Option Marker) (trust : TrustLevel)
    (q : Nat) (r : Package) (review : Review) (hrev : r.review = Option.some review) :
    (review.rating = Rating.negative →
      blocked_url (c.lookupUrl r.common.fromId.id) = true →
      (step c last_review (trust, q, r)).1 = Option.none) ∧
    (review.rating ≠ Rating.negative →
      ((step c last_review (trust, q, r)).1 = Option.none ↔
        trust_term? trust = Option.none ∨
        (∃ tt, trust_term? trust = Option.some tt ∧ q < tt + rating_term review.rating) ∨
        dominatedBy last_review trust q r.package.id.version = true ∨
        c.digestOf r = Option.none)) := by
  constructor
  · intro hneg hblock
    have hv : decide (review.rating = Rating.negative) = true := by simp [hneg]
    simp only [step, hrev, hv, hblock, Bool.true_and, if_true]
  · exact step_nonneg_none_iff c last_review trust q r review hrev

/-- Witness for C9: the sample violation is dropped under a blocklisted
profile URL, and a sub-threshold endorsement is dropped for reasons
independent of the blocklist. -/
theorem c9_witness :
    (step exCtxBlocked Option.none (TrustLevel.medium, 2, exPkgNeg)).1 = Option.none ∧
    (step exCtx Option.none (TrustLevel.medium, 2, exPkg)).1 = Option.none := by
  constructor
  · exact (c9_blocklist exCtxBlocked Option.none TrustLevel.medium 2 exPkgNeg exReviewNeg
      rfl).1 rfl (by decide)
  · exact ((c9_blocklist exCtx Option.none TrustLevel.medium 2 exPkg exReviewPos rfl).2
      (by decide)).mpr (Or.inr (Or.inl ⟨3, rfl, by decide⟩))

/-- C10: every emitted audit entry is derived from a review whose package
source is the crates.io registry, so a review of a package from any other
source never contributes an entry to the output document. -/
theorem c10_crates_io_only (c : Ctx) (r : Package)
    (hsrc : r.package.id.id.source ≠ SOURCE_CRATES_IO) :
    (∀ p ∈ convertPairs c, p.1.package.id.id.source = SOURCE_CRATES_IO) ∧
    (∀ p ∈ convertPairs c, p.1 ≠ r) := by
  have key : ∀ p ∈ convertPairs c, p.1.package.id.id.source = SOURCE_CRATES_IO :=
    fun p hp => (convertPairs_src c p hp).2.1
  refine ⟨key, fun p hp heq => ?_⟩
  exact hsrc (heq ▸ key p hp)

/-- Witness for C10: with a snapshot holding a crates.io review and a review
from another registry, the pipeline emits the crates.io entry and that entry
is not derived from the foreign-source review. -/
theorem c10_witness :
    exPkgOther.package.id.id.source ≠ SOURCE_CRATES_IO ∧
    (exPkg, exEntry) ∈ convertPairs exCtxOther ∧
    (exPkg, exEntry).1 ≠ exPkgOther := by
  refine ⟨by decide, by decide, ?_⟩
  exact (c10_crates_io_only exCtxOther exPkgOther (by decide)).2 (exPkg, exEntry) (by decide)
